import Mathlib

/-!
Shallow embedding of the Kanteliqour point-of-sale core: the data model
(`src/types.ts`, `src/unnamed/part_001`), the persistence layer
(`src/services/db.ts` localStorage variant, `src/unnamed/part_002` Firestore
variant), the cart / pricing / checkout flow (`src/pages/Dashboard.tsx`,
which holds two POS components: an async Firestore-backed one and a sync
localStorage-backed one), and the report aggregation (`src/pages/Reports.tsx`).

Monetary amounts (JS `number`) are modelled as rationals; quantities, stock
counts and timestamps as integers.  ISO date strings are modelled by their
timestamp value, preserving the order used by the range filters.
-/

namespace Kante

/-- `UserRole` from src/types.ts. -/
inductive UserRole where
  | admin | manager | cashier
deriving DecidableEq, Repr

/-- `PaymentMethod` from src/types.ts. -/
inductive PaymentMethod where
  | cash | airtelMoney | tnmMpamba | bankTransfer
deriving DecidableEq, Repr

/-- `ProductCategory` from src/types.ts. -/
inductive ProductCategory where
  | spirits | wines | beer | softDrinks | cigarettes | snacks
deriving DecidableEq, Repr

/-- `Product` from src/types.ts / src/unnamed/part_001. -/
structure Product where
  id : String
  name : String
  category : ProductCategory
  price : ℚ
  costPrice : ℚ
  stock : ℤ
  barcode : String
  lowStockThreshold : ℤ
deriving DecidableEq, Repr

/-- `CartItem extends Product { quantity }` from src/types.ts: the spread
`{ ...product, quantity }` is modelled as a product record plus quantity. -/
structure CartItem where
  product : Product
  quantity : ℤ
deriving DecidableEq, Repr

/-- `User` from src/types.ts. -/
structure User where
  id : String
  name : String
  role : UserRole
  username : String
deriving DecidableEq, Repr

/-- `StoreSettings` from src/unnamed/part_001. -/
structure StoreSettings where
  shopName : String
  addressLine1 : String
  addressLine2 : String
  phone : String
  tinNumber : String
  taxRate : ℚ
  receiptFooter : String
deriving DecidableEq, Repr

/-- `SaleItem`: src/unnamed/part_001 declares `costPrice : number`, but the
sale objects built by the localStorage POS variant (Dashboard.tsx lines
887-904) carry no `costPrice` field, and Reports.tsx reads it with
`item.costPrice ?? fallback`; the possibly-absent field is an `Option`. -/
structure SaleItem where
  productId : String
  name : String
  quantity : ℤ
  price : ℚ
  costPrice : Option ℚ
  total : ℚ
deriving DecidableEq, Repr

/-- `Sale` from src/types.ts / src/unnamed/part_001. -/
structure Sale where
  id : String
  date : ℤ
  cashierId : String
  cashierName : String
  items : List SaleItem
  subtotal : ℚ
  tax : ℚ
  total : ℚ
  paymentMethod : PaymentMethod
deriving DecidableEq, Repr

/-- `Expense` from src/unnamed/part_001. -/
structure Expense where
  id : String
  date : ℤ
  category : String
  description : String
  amount : ℚ
  recordedBy : String
deriving DecidableEq, Repr

/-- `ActivityLog` from src/unnamed/part_001. -/
structure ActivityLog where
  id : String
  userId : String
  userName : String
  action : String
  details : String
  timestamp : ℤ
  logType : String
deriving DecidableEq, Repr

/-! ## Cart accumulator (Dashboard.tsx lines 318-349 and 842-874; the two
POS components contain the same three cart functions verbatim). -/

/-- `addToCart` (Dashboard.tsx lines 318-333):
returns the cart unchanged when `product.stock <= 0`; when a line with the
product's id exists and its quantity already reaches `product.stock`,
returns the cart unchanged; when the line exists below the limit, bumps
each matching line's quantity by 1; otherwise appends a new line with
quantity 1. -/
def addToCart (product : Product) (cart : List CartItem) : List CartItem :=
  if product.stock ≤ 0 then cart
  else
    match cart.find? (fun item => item.product.id == product.id) with
    | some existing =>
      if product.stock ≤ existing.quantity then cart
      else cart.map (fun item =>
        if item.product.id == product.id then
          { item with quantity := item.quantity + 1 }
        else item)
    | none => cart ++ [{ product := product, quantity := 1 }]

/-- The per-line body of `updateQuantity` (Dashboard.tsx lines 335-346):
for the matching line, `newQty = max(1, quantity + delta)`; when the catalog
product is found and `newQty` exceeds its stock the line is returned
unchanged, otherwise the quantity becomes `newQty`. -/
def updateQuantityItem (products : List Product) (id : String) (delta : ℤ)
    (item : CartItem) : CartItem :=
  if item.product.id == id then
    let newQty := max 1 (item.quantity + delta)
    match products.find? (fun p => p.id == id) with
    | some p => if p.stock < newQty then item else { item with quantity := newQty }
    | none => { item with quantity := newQty }
  else item

/-- `updateQuantity` (Dashboard.tsx lines 335-346): maps the per-line body
over the cart. -/
def updateQuantity (products : List Product) (id : String) (delta : ℤ)
    (cart : List CartItem) : List CartItem :=
  cart.map (updateQuantityItem products id delta)

/-- `removeFromCart` (Dashboard.tsx lines 348-350). -/
def removeFromCart (id : String) (cart : List CartItem) : List CartItem :=
  cart.filter (fun item => !(item.product.id == id))

/-! ## Pricing calculator -/

structure Totals where
  subtotal : ℚ
  tax : ℚ
  total : ℚ
deriving DecidableEq, Repr

/-- `cartTotals` of the Firestore-backed POS (Dashboard.tsx lines 352-357):
`taxRate = storeSettings?.taxRate ? storeSettings.taxRate / 100 : 0.165`.
JS truthiness: when settings are absent or the configured rate is 0 the
hard-coded default 0.165 applies. -/
def cartTotals (cart : List CartItem) (storeSettings : Option StoreSettings) :
    Totals :=
  let subtotal := cart.foldl
    (fun acc item => acc + item.product.price * (item.quantity : ℚ)) 0
  let taxRate : ℚ :=
    match storeSettings with
    | some s => if s.taxRate ≠ 0 then s.taxRate / 100 else 0.165
    | none => 0.165
  let tax := subtotal * taxRate
  { subtotal := subtotal, tax := tax, total := subtotal + tax }

/-- `cartTotals` of the localStorage-backed POS (Dashboard.tsx lines
876-880): the tax rate is the hard-coded literal `0.165`. -/
def cartTotalsLocal (cart : List CartItem) : Totals :=
  let subtotal := cart.foldl
    (fun acc item => acc + item.product.price * (item.quantity : ℚ)) 0
  let tax := subtotal * 0.165
  { subtotal := subtotal, tax := tax, total := subtotal + tax }

/-! ## Persistence layer: the two `db` variants. -/

/-- `db.products.reduceStock` of the localStorage variant
(src/services/db.ts lines 65-72): `findIndex` locates the first product with
the id and sets `stock = Math.max(0, stock - qty)`; a missing id is a no-op. -/
def lsReduceStock (id : String) (qty : ℤ) : List Product → List Product
  | [] => []
  | p :: rest =>
    if p.id == id then { p with stock := max 0 (p.stock - qty) } :: rest
    else p :: lsReduceStock id qty rest

/-- `db.products.reduceStock` of the Firestore variant
(src/unnamed/part_002 lines 117-121): `updateDoc(ref, { stock:
increment(-qty) })` subtracts `qty` from the stored stock with no lower
bound; a missing id is modelled as a no-op. -/
def fsReduceStock (id : String) (qty : ℤ) : List Product → List Product
  | [] => []
  | p :: rest =>
    if p.id == id then { p with stock := p.stock - qty } :: rest
    else p :: fsReduceStock id qty rest

/-- `db.sales.add` of the localStorage variant (src/services/db.ts lines
74-81): reads the stored array, pushes the sale, writes it back. -/
def lsSalesAdd (sale : Sale) (sales : List Sale) : List Sale :=
  sales ++ [sale]

/-- `db.sales.add` of the Firestore variant (src/unnamed/part_002 lines
133-135): `setDoc(doc(dbInstance, 'sales', sale.id), ...)` creates the
document keyed by `sale.id`, replacing any existing document with that key. -/
def fsSalesAdd (sale : Sale) (sales : List Sale) : List Sale :=
  if sales.any (fun s => s.id == sale.id) then
    sales.map (fun s => if s.id == sale.id then sale else s)
  else sales ++ [sale]

/-! ## Checkout flow (sale recorder) -/

/-- The persisted stores touched by checkout: the product catalog, the sales
collection and the activity log. -/
structure PosState where
  products : List Product
  sales : List Sale
  logs : List ActivityLog
deriving DecidableEq, Repr

/-- The `Sale` object literal built by the Firestore-backed `processPayment`
(Dashboard.tsx lines 367-384): each item copies the cart line's quantity,
price and `costPrice` (the snapshot taken for profit calculation), and the
totals come from `cartTotals`. -/
def buildSale (saleId : String) (date : ℤ) (user : User) (pm : PaymentMethod)
    (settings : Option StoreSettings) (cart : List CartItem) : Sale :=
  let totals := cartTotals cart settings
  { id := saleId
    date := date
    cashierId := user.id
    cashierName := user.name
    items := cart.map (fun item =>
      { productId := item.product.id
        name := item.product.name
        quantity := item.quantity
        price := item.product.price
        costPrice := some item.product.costPrice
        total := item.product.price * (item.quantity : ℚ) })
    subtotal := totals.subtotal
    tax := totals.tax
    total := totals.total
    paymentMethod := pm }

/-- The `Sale` object literal built by the localStorage-backed
`processPayment` (Dashboard.tsx lines 887-904): identical except that the
items carry no `costPrice` field and the totals come from the hard-coded
`cartTotals` variant. -/
def buildSaleLocal (saleId : String) (date : ℤ) (user : User)
    (pm : PaymentMethod) (cart : List CartItem) : Sale :=
  let totals := cartTotalsLocal cart
  { id := saleId
    date := date
    cashierId := user.id
    cashierName := user.name
    items := cart.map (fun item =>
      { productId := item.product.id
        name := item.product.name
        quantity := item.quantity
        price := item.product.price
        costPrice := none
        total := item.product.price * (item.quantity : ℚ) })
    subtotal := totals.subtotal
    tax := totals.tax
    total := totals.total
    paymentMethod := pm }

/-- The activity-log entry appended by the Firestore-backed `processPayment`
(Dashboard.tsx lines 389-396). -/
def saleLog (user : User) (sale : Sale) : ActivityLog :=
  { id := toString sale.date
    userId := user.id
    userName := user.name
    action := "Sale Completed"
    details := "Processed sale"
    timestamp := sale.date
    logType := "success" }

/-- `processPayment` of the Firestore-backed POS (Dashboard.tsx lines
366-407).  The statements run in source order: persist the sale
(`await db.sales.add`), append the audit log, then loop
`db.products.reduceStock` over the cart.  `saleWriteOk` models whether the
awaited sale write succeeds; a rejected write throws, so the following
statements never run and the stores are left as they were. -/
def processPayment (saleWriteOk : Bool) (saleId : String) (date : ℤ)
    (user : User) (pm : PaymentMethod) (settings : Option StoreSettings)
    (cart : List CartItem) (st : PosState) : PosState × Option Sale :=
  let sale := buildSale saleId date user pm settings cart
  if saleWriteOk then
    let st1 := { st with sales := fsSalesAdd sale st.sales }
    let st2 := { st1 with logs := st1.logs ++ [saleLog user sale] }
    let st3 := { st2 with
      products := cart.foldl
        (fun ps item => fsReduceStock item.product.id item.quantity ps)
        st2.products }
    (st3, some sale)
  else (st, none)

/-- `processPayment` of the localStorage-backed POS (Dashboard.tsx lines
887-919): persist the sale, then loop `reduceStock`; no audit log.
A throwing `db.sales.add` aborts before the stock loop. -/
def processPaymentLocal (saleWriteOk : Bool) (saleId : String) (date : ℤ)
    (user : User) (pm : PaymentMethod) (cart : List CartItem)
    (st : PosState) : PosState × Option Sale :=
  let sale := buildSaleLocal saleId date user pm cart
  if saleWriteOk then
    let st1 := { st with sales := lsSalesAdd sale st.sales }
    let st2 := { st1 with
      products := cart.foldl
        (fun ps item => lsReduceStock item.product.id item.quantity ps)
        st1.products }
    (st2, some sale)
  else (st, none)

/-- `handleCheckout` (Dashboard.tsx lines 359-362 and 882-885):
`if (cart.length === 0) return;` — checkout proceeds only for a non-empty
cart. -/
def handleCheckout (cart : List CartItem) : Bool :=
  !(cart.length == 0)

/-- The finalization flow of the Firestore-backed POS: `handleCheckout`
gates the payment step; with an empty cart nothing runs and no record of
any kind is produced. -/
def checkoutFlow (saleWriteOk : Bool) (saleId : String) (date : ℤ)
    (user : User) (pm : PaymentMethod) (settings : Option StoreSettings)
    (cart : List CartItem) (st : PosState) : PosState × Option Sale :=
  if handleCheckout cart then
    processPayment saleWriteOk saleId date user pm settings cart st
  else (st, none)

/-- The finalization flow of the localStorage-backed POS. -/
def checkoutFlowLocal (saleWriteOk : Bool) (saleId : String) (date : ℤ)
    (user : User) (pm : PaymentMethod) (cart : List CartItem)
    (st : PosState) : PosState × Option Sale :=
  if handleCheckout cart then
    processPaymentLocal saleWriteOk saleId date user pm cart st
  else (st, none)

/-! ## Cart reachability: the user-triggered cart mutations. -/

/-- One user action on the cart. -/
inductive CartOp where
  | add (product : Product)
  | update (id : String) (delta : ℤ)
  | remove (id : String)
deriving Repr

/-- Dispatch a cart action to the corresponding Dashboard handler. -/
def applyOp (products : List Product) (cart : List CartItem) :
    CartOp → List CartItem
  | .add p => addToCart p cart
  | .update id delta => updateQuantity products id delta cart
  | .remove id => removeFromCart id cart

/-- The cart produced by a sequence of user actions starting from the empty
cart, against a fixed catalog. -/
def runOps (products : List Product) (ops : List CartOp) : List CartItem :=
  ops.foldl (applyOp products) []

/-- An action is well-formed when any product it adds comes from the
catalog (the POS only ever calls `addToCart` with a rendered catalog
product). -/
def opFromCatalog (products : List Product) : CartOp → Prop
  | .add p => p ∈ products
  | .update _ _ => True
  | .remove _ => True

/-! ## Reporting aggregator (Reports.tsx) -/

/-- The per-item cost used by the COGS reduction in `pnlData` (Reports.tsx
lines 154-160): `item.costPrice ?? (productCostMap.get(item.productId) || 0)`
— the stored snapshot when present, otherwise the catalog product's current
cost price, otherwise 0. -/
def itemCost (products : List Product) (item : SaleItem) : ℚ :=
  match item.costPrice with
  | some c => c
  | none =>
    match products.find? (fun p => p.id == item.productId) with
    | some p => p.costPrice
    | none => 0

/-- The COGS contribution of one sale in `pnlData`. -/
def saleCogs (products : List Product) (sale : Sale) : ℚ :=
  sale.items.foldl
    (fun isum item => isum + itemCost products item * (item.quantity : ℚ)) 0

structure PnlData where
  revenue : ℚ
  cogs : ℚ
  grossProfit : ℚ
  grossMargin : ℚ
  totalExpenses : ℚ
  netProfit : ℚ
  netMargin : ℚ
  filteredSales : List Sale
  filteredExpenses : List Expense
deriving DecidableEq, Repr

/-- `pnlData` (Reports.tsx lines 137-185): filter sales and expenses into
the inclusive date range, sum revenue, COGS (with the cost fallback),
gross/net profit, and guard both margin divisions on `revenue > 0`. -/
def pnlData (sales : List Sale) (expenses : List Expense)
    (products : List Product) (rangeStart rangeEnd : ℤ) : PnlData :=
  let filteredSales := sales.filter
    (fun s => decide (rangeStart ≤ s.date) && decide (s.date ≤ rangeEnd))
  let filteredExpenses := expenses.filter
    (fun e => decide (rangeStart ≤ e.date) && decide (e.date ≤ rangeEnd))
  let revenue := filteredSales.foldl (fun sum s => sum + s.total) 0
  let cogs := filteredSales.foldl (fun sum s => sum + saleCogs products s) 0
  let grossProfit := revenue - cogs
  let grossMargin := if revenue > 0 then grossProfit / revenue * 100 else 0
  let totalExpenses := filteredExpenses.foldl (fun sum e => sum + e.amount) 0
  let netProfit := grossProfit - totalExpenses
  let netMargin := if revenue > 0 then netProfit / revenue * 100 else 0
  { revenue := revenue
    cogs := cogs
    grossProfit := grossProfit
    grossMargin := grossMargin
    totalExpenses := totalExpenses
    netProfit := netProfit
    netMargin := netMargin
    filteredSales := filteredSales
    filteredExpenses := filteredExpenses }

/-! ## Sample data used by concrete evaluations (drawn from the seed data
in src/services/db.ts). -/

def sampleUser : User :=
  { id := "3", name := "John Cashier", role := .cashier, username := "cashier" }

def productJD : Product :=
  { id := "1", name := "Jack Daniels 750ml", category := .spirits
    price := 45000, costPrice := 35000, stock := 24
    barcode := "1001", lowStockThreshold := 5 }

def settings165 : StoreSettings :=
  { shopName := "Kante Liquor", addressLine1 := "Plot 123, Area 10"
    addressLine2 := "Lilongwe, Malawi", phone := "+265 999 123 456"
    tinNumber := "12345678", taxRate := 16.5
    receiptFooter := "Thank you for shopping with us!" }

def zeroRateSettings : StoreSettings := { settings165 with taxRate := 0 }

def productStock5 : Product := { productJD with stock := 5 }

def productStock1 : Product := { productJD with stock := 1 }

def productCost30 : Product := { productJD with price := 50, costPrice := 30 }

def posState1 : PosState := { products := [productStock1], sales := [], logs := [] }

def saleA : Sale :=
  { id := "123", date := 0, cashierId := "3", cashierName := "John Cashier"
    items := [], subtotal := 10, tax := 0, total := 10, paymentMethod := .cash }

def saleB : Sale := { saleA with total := 20 }

def saleInRange : Sale := { saleA with date := 50, total := 100 }

/-! ## Helper lemmas -/

/-- Folding `+ f x` over a list from `acc` adds the mapped sum. -/
theorem foldl_add_map_sum {α : Type} (f : α → ℚ) (l : List α) (acc : ℚ) :
    l.foldl (fun a x => a + f x) acc = acc + (l.map f).sum := by
  induction l generalizing acc with
  | nil => simp
  | cons x xs ih => simp [ih, add_assoc]

/-! ## Claim theorems -/

/-- C1: the Firestore-variant checkout decrements stock by the raw sold
quantity with no floor: selling 2 units of a product whose stock is 1 drives
its stock to -1, not to max(0, 1-2) = 0 as the claim states; the
localStorage-variant checkout does floor at 0 on the same input. -/
theorem checkout_stock_goes_negative :
    ((processPayment true "100" 0 sampleUser .cash none
        [{ product := productStock1, quantity := 2 }] posState1).1.products).map
      (fun p => p.stock) = [-1] ∧
    ((processPaymentLocal true "100" 0 sampleUser .cash
        [{ product := productStock1, quantity := 2 }] posState1).1.products).map
      (fun p => p.stock) = [max 0 (1 - 2)] ∧
    (-1 : ℤ) < 0 := by
  refine ⟨?_, ?_, by decide⟩ <;> decide

/-- C2 counterexample: with a configured tax rate of 0 the code charges
16.5% (the zero rate is falsy), so for a one-line cart of price 100 the tax
is 33/2 = 16.5, not subtotal x (0 / 100) = 0 as the claim states. -/
theorem cartTotals_zero_rate_counterexample :
    (cartTotals [{ product := { productJD with price := 100 }, quantity := 1 }]
        (some zeroRateSettings)).tax
      ≠ (cartTotals [{ product := { productJD with price := 100 }, quantity := 1 }]
          (some zeroRateSettings)).subtotal * (zeroRateSettings.taxRate / 100) ∧
    (cartTotals [{ product := { productJD with price := 100 }, quantity := 1 }]
        (some zeroRateSettings)).tax = 33 / 2 := by
  constructor <;> norm_num [cartTotals, zeroRateSettings, settings165, productJD]

/-- C2 (amended): for every cart and every settings record whose configured
tax rate is nonzero, subtotal = Σ (unit price x quantity), tax =
subtotal x (taxRatePercent / 100) and total = subtotal + tax. -/
theorem cartTotals_formula (cart : List CartItem) (s : StoreSettings)
    (hrate : s.taxRate ≠ 0) :
    (cartTotals cart (some s)).subtotal
      = (cart.map (fun i => i.product.price * (i.quantity : ℚ))).sum ∧
    (cartTotals cart (some s)).tax
      = (cartTotals cart (some s)).subtotal * (s.taxRate / 100) ∧
    (cartTotals cart (some s)).total
      = (cartTotals cart (some s)).subtotal + (cartTotals cart (some s)).tax := by
  refine ⟨?_, ?_, rfl⟩
  · simpa [cartTotals] using foldl_add_map_sum
      (fun i : CartItem => i.product.price * (i.quantity : ℚ)) cart 0
  · simp [cartTotals, hrate]

/-- C2 witness: the spec's example scenario — one line of price 45000,
quantity 1, at tax rate 16.5% — yields subtotal 45000, tax 7425,
total 52425. -/
theorem cartTotals_formula_witness :
    (cartTotals [{ product := productJD, quantity := 1 }] (some settings165)).subtotal
      = 45000 ∧
    (cartTotals [{ product := productJD, quantity := 1 }] (some settings165)).tax
      = 7425 ∧
    (cartTotals [{ product := productJD, quantity := 1 }] (some settings165)).total
      = 52425 := by
  have h := cartTotals_formula [{ product := productJD, quantity := 1 }]
    settings165 (by norm_num [settings165])
  refine ⟨h.1.trans ?_, (h.2.1).trans ?_, (h.2.2).trans ?_⟩ <;>
    norm_num [cartTotals, settings165, productJD]

/-- C3: when the awaited sale write fails, both checkout variants abort with
the stores exactly as they were: no stock decrement, no log entry, no sale. -/
theorem saleWrite_failure_aborts (saleId : String) (date : ℤ) (user : User)
    (pm : PaymentMethod) (settings : Option StoreSettings)
    (cart : List CartItem) (st st' : PosState) :
    processPayment false saleId date user pm settings cart st = (st, none) ∧
    processPaymentLocal false saleId date user pm cart st' = (st', none) := by
  constructor <;> rfl

/-- C6: checkout with an empty cart is refused by the `cart.length === 0`
guard in both POS variants: no Sale is persisted, no stock is decremented,
no audit log entry is emitted — the stores are returned untouched. -/
theorem empty_cart_checkout_no_records (saleWriteOk : Bool) (saleId : String)
    (date : ℤ) (user : User) (pm : PaymentMethod)
    (settings : Option StoreSettings) (st st' : PosState) :
    checkoutFlow saleWriteOk saleId date user pm settings [] st = (st, none) ∧
    checkoutFlowLocal saleWriteOk saleId date user pm [] st' = (st', none) := by
  constructor <;> rfl

/-- C8: persisting a second sale whose id collides with a stored sale's id
is not an error in either variant: the Firestore `setDoc` silently replaces
the existing record, and the localStorage `push` appends a duplicate. -/
theorem sale_id_collision_overwrites :
    fsSalesAdd saleB (fsSalesAdd saleA []) = [saleB] ∧
    saleB ≠ saleA ∧
    lsSalesAdd saleB (lsSalesAdd saleA []) = [saleA, saleB] := by
  refine ⟨by decide, by decide, rfl⟩

/-- C10: whenever the store settings are absent, or present with a
configured tax rate equal to 0, `cartTotals` applies the hard-coded default
rate 0.165 — and therefore charges nonzero tax on any nonzero subtotal. -/
theorem cartTotals_default_rate (cart : List CartItem) (s : StoreSettings)
    (hrate : s.taxRate = 0) :
    (cartTotals cart none).tax = (cartTotals cart none).subtotal * 0.165 ∧
    (cartTotals cart (some s)).tax = (cartTotals cart (some s)).subtotal * 0.165 ∧
    ((cartTotals cart (some s)).subtotal ≠ 0 →
      (cartTotals cart (some s)).tax ≠ 0) := by
  refine ⟨rfl, by simp [cartTotals, hrate], ?_⟩
  intro hsub
  simp only [cartTotals, hrate]
  simp only [ne_eq, not_true_eq_false, if_false, mul_eq_zero, not_or]
  constructor
  · simpa [cartTotals] using hsub
  · norm_num

/-- C10 witness: a shop configured with tax rate 0 and a one-line cart of
price 100 is charged tax 16.5 — the default rate, not 0%. -/
theorem cartTotals_default_rate_witness :
    zeroRateSettings.taxRate = 0 ∧
    (cartTotals [{ product := { productJD with price := 100 }, quantity := 1 }]
        (some zeroRateSettings)).tax
      = (cartTotals [{ product := { productJD with price := 100 }, quantity := 1 }]
          (some zeroRateSettings)).subtotal * 0.165 := by
  have h := cartTotals_default_rate
    [{ product := { productJD with price := 100 }, quantity := 1 }]
    zeroRateSettings (by decide)
  exact ⟨by decide, h.2.1⟩

/-- C4 counterexample: with catalog stock 5 and a line at quantity 2, a
request for quantity 10 (delta +8) is not clamped to the stock bound 5 as
the claim states — the line is left at quantity 2. -/
theorem updateQuantity_no_stock_clamp :
    (updateQuantity [productStock5] "1" 8
        [{ product := productStock5, quantity := 2 }]).map (fun i => i.quantity)
      ≠ [min (max 1 (2 + 8)) productStock5.stock] ∧
    (updateQuantity [productStock5] "1" 8
        [{ product := productStock5, quantity := 2 }]).map (fun i => i.quantity)
      = [2] := by
  constructor <;> decide

/-- C4 (amended): `updateQuantity` clamps the requested quantity to a
minimum of 1; a request whose result would exceed the catalog product's
stock leaves the line unchanged (a no-op, not a clamp to stock), so a line
within bounds stays within 1..stock. -/
theorem updateQuantity_min_clamp_stock_noop (products : List Product)
    (id : String) (delta : ℤ) (item : CartItem) (p : Product)
    (hfind : products.find? (fun q => q.id == id) = some p)
    (h1 : 1 ≤ item.quantity) (hs : item.quantity ≤ p.stock) :
    (updateQuantityItem products id delta item).product = item.product ∧
    1 ≤ (updateQuantityItem products id delta item).quantity ∧
    (updateQuantityItem products id delta item).quantity ≤ p.stock ∧
    ((item.product.id == id) = true →
      (updateQuantityItem products id delta item).quantity
        = if p.stock < max 1 (item.quantity + delta) then item.quantity
          else max 1 (item.quantity + delta)) := by
  have hbody : updateQuantityItem products id delta item
      = if item.product.id == id
        then (if p.stock < max 1 (item.quantity + delta) then item
              else { item with quantity := max 1 (item.quantity + delta) })
        else item := by
    unfold updateQuantityItem
    by_cases hid : (item.product.id == id) = true
    · simp [hid, hfind]
    · simp [hid]
  rw [hbody]
  by_cases hid : (item.product.id == id) = true
  · rw [if_pos hid]
    by_cases hlt : p.stock < max 1 (item.quantity + delta)
    · rw [if_pos hlt]
      exact ⟨rfl, h1, hs, fun _ => (if_pos hlt).symm⟩
    · rw [if_neg hlt]
      exact ⟨rfl, le_max_left _ _, le_of_not_lt hlt, fun _ => (if_neg hlt).symm⟩
  · rw [if_neg hid]
    exact ⟨rfl, h1, hs, fun hcon => absurd hcon hid⟩

/-- C4 witness: stock 5, quantity 2, delta +8 — the handler returns
quantity 2 (the no-op branch of the amended statement). -/
theorem updateQuantity_min_clamp_stock_noop_witness :
    (updateQuantityItem [productStock5] "1" 8
        { product := productStock5, quantity := 2 }).quantity = 2 := by
  have h := updateQuantity_min_clamp_stock_noop [productStock5] "1" 8
    { product := productStock5, quantity := 2 } productStock5
    (by decide) (by decide) (by decide)
  exact (h.2.2.2 (by decide)).trans (by decide)

/-- C7 counterexample: a sale finalized by the localStorage POS stores no
unit cost on its lines (`costPrice` is absent), so report COGS for that sale
is a live lookup: editing the product's cost price from 30 to 99 changes the
sale's reported cost of goods from 60 to 198. -/
theorem sale_cost_not_snapshotted_local :
    ((buildSaleLocal "9" 0 sampleUser .cash
        [{ product := productCost30, quantity := 2 }]).items.map
      (fun i => i.costPrice)) = [none] ∧
    saleCogs [productCost30]
        (buildSaleLocal "9" 0 sampleUser .cash
          [{ product := productCost30, quantity := 2 }]) = 60 ∧
    saleCogs [{ productCost30 with costPrice := 99 }]
        (buildSaleLocal "9" 0 sampleUser .cash
          [{ product := productCost30, quantity := 2 }]) = 198 := by
  refine ⟨rfl, ?_, ?_⟩ <;>
    norm_num [saleCogs, buildSaleLocal, itemCost, List.find?, productCost30,
      productJD]

/-- C7 (amended): sales built by the Firestore-backed POS snapshot each
line's unit cost at finalization — every sale item carries the cart line's
`costPrice`, and the reported cost of goods for such a sale is independent
of any later state of the product catalog. -/
theorem sale_cost_snapshot (saleId : String) (date : ℤ) (user : User)
    (pm : PaymentMethod) (settings : Option StoreSettings)
    (cart : List CartItem) (products products' : List Product) :
    ((buildSale saleId date user pm settings cart).items.map
      (fun i => i.costPrice)) = cart.map (fun i => some i.product.costPrice) ∧
    saleCogs products (buildSale saleId date user pm settings cart)
      = saleCogs products' (buildSale saleId date user pm settings cart) := by
  constructor
  · simp [buildSale]
  · have key : ∀ ps : List Product,
        saleCogs ps (buildSale saleId date user pm settings cart)
          = cart.foldl
              (fun acc i => acc + i.product.costPrice * (i.quantity : ℚ)) 0 := by
      intro ps
      simp [saleCogs, buildSale, List.foldl_map, itemCost]
    rw [key, key]

/-- C9: report aggregation guards both margin divisions on positive revenue:
zero filtered revenue yields gross and net margins 0, and positive revenue
yields the profit/revenue x 100 formulas. -/
theorem pnl_margin_zero_guard (sales : List Sale) (expenses : List Expense)
    (products : List Product) (rangeStart rangeEnd : ℤ) :
    ((pnlData sales expenses products rangeStart rangeEnd).revenue = 0 →
      (pnlData sales expenses products rangeStart rangeEnd).grossMargin = 0 ∧
      (pnlData sales expenses products rangeStart rangeEnd).netMargin = 0) ∧
    (0 < (pnlData sales expenses products rangeStart rangeEnd).revenue →
      (pnlData sales expenses products rangeStart rangeEnd).grossMargin
        = (pnlData sales expenses products rangeStart rangeEnd).grossProfit
          / (pnlData sales expenses products rangeStart rangeEnd).revenue * 100 ∧
      (pnlData sales expenses products rangeStart rangeEnd).netMargin
        = (pnlData sales expenses products rangeStart rangeEnd).netProfit
          / (pnlData sales expenses products rangeStart rangeEnd).revenue * 100) := by
  have hg : (pnlData sales expenses products rangeStart rangeEnd).grossMargin
      = if 0 < (pnlData sales expenses products rangeStart rangeEnd).revenue
        then (pnlData sales expenses products rangeStart rangeEnd).grossProfit
          / (pnlData sales expenses products rangeStart rangeEnd).revenue * 100
        else 0 := rfl
  have hn : (pnlData sales expenses products rangeStart rangeEnd).netMargin
      = if 0 < (pnlData sales expenses products rangeStart rangeEnd).revenue
        then (pnlData sales expenses products rangeStart rangeEnd).netProfit
          / (pnlData sales expenses products rangeStart rangeEnd).revenue * 100
        else 0 := rfl
  constructor
  · intro h
    rw [hg, hn, h]
    simp
  · intro h
    rw [hg, hn, if_pos h, if_pos h]
    exact ⟨rfl, rfl⟩

/-- C9 witness: an empty range yields margins 0, and a range holding one
sale of total 100 yields the gross-margin formula. -/
theorem pnl_margin_zero_guard_witness :
    ((pnlData [] [] [] 0 100).grossMargin = 0 ∧
      (pnlData [] [] [] 0 100).netMargin = 0) ∧
    (pnlData [saleInRange] [] [] 0 100).grossMargin
      = (pnlData [saleInRange] [] [] 0 100).grossProfit
        / (pnlData [saleInRange] [] [] 0 100).revenue * 100 := by
  refine ⟨(pnl_margin_zero_guard [] [] [] 0 100).1 rfl,
    ((pnl_margin_zero_guard [saleInRange] [] [] 0 100).2 ?_).1⟩
  norm_num [pnlData, saleInRange, saleA]

/-! ## The cart invariant (C5) -/

/-- The invariant the cart handlers maintain against a fixed catalog: line
product ids are unique, each line's embedded product record is the catalog
product its id finds, and 1 ≤ quantity ≤ stock. -/
def CartInv (products : List Product) (cart : List CartItem) : Prop :=
  (cart.map (fun i => i.product.id)).Nodup ∧
  ∀ item ∈ cart,
    products.find? (fun q => q.id == item.product.id) = some item.product ∧
    1 ≤ item.quantity ∧ item.quantity ≤ item.product.stock

/-- In a list whose keys are distinct, searching for a member's key finds
that member. -/
theorem find?_key_of_mem_nodup {α : Type} (key : α → String) (l : List α)
    (hnd : (l.map key).Nodup) {a : α} (ha : a ∈ l) :
    l.find? (fun x => key x == key a) = some a := by
  induction l with
  | nil => cases ha
  | cons b t ih =>
    simp only [List.map_cons, List.nodup_cons] at hnd
    rcases List.mem_cons.mp ha with rfl | hat
    · exact List.find?_cons_of_pos _ (by simp)
    · rw [List.find?_cons_of_neg, ih hnd.2 hat]
      simp only [beq_iff_eq]
      intro h
      exact hnd.1 (h ▸ List.mem_map_of_mem key hat)

/-- A map whose body never changes the `product` field preserves the list
of product ids. -/
theorem map_key_of_product_preserving (f : CartItem → CartItem)
    (hf : ∀ i, (f i).product = i.product) (cart : List CartItem) :
    (cart.map f).map (fun i => i.product.id)
      = cart.map (fun i => i.product.id) := by
  induction cart with
  | nil => rfl
  | cons x xs ih => simp [hf, ih]

/-- `addToCart` with a catalog product preserves the cart invariant. -/
theorem addToCart_inv {products : List Product}
    (hnd : (products.map (fun p => p.id)).Nodup) {p : Product}
    (hp : p ∈ products) {cart : List CartItem}
    (hinv : CartInv products cart) : CartInv products (addToCart p cart) := by
  obtain ⟨hcnd, hitems⟩ := hinv
  unfold addToCart
  by_cases hstock : p.stock ≤ 0
  · rw [if_pos hstock]; exact ⟨hcnd, hitems⟩
  rw [if_neg hstock]
  cases hfind : cart.find? (fun item => item.product.id == p.id) with
  | none =>
    have hnotin : p.id ∉ cart.map (fun i => i.product.id) := by
      intro hmem
      rcases List.mem_map.mp hmem with ⟨item, hitem, hkey⟩
      have hno := List.find?_eq_none.mp hfind item hitem
      simp [hkey] at hno
    constructor
    · simpa [List.nodup_append, hnotin] using hcnd
    · intro item hitem
      rcases List.mem_append.mp hitem with h | h
      · exact hitems item h
      · rcases List.mem_singleton.mp h with rfl
        refine ⟨find?_key_of_mem_nodup (fun q => q.id) products hnd hp,
          le_refl 1, ?_⟩
        show (1 : ℤ) ≤ p.stock
        omega
  | some existing =>
    have hex_mem : existing ∈ cart := List.mem_of_find?_eq_some hfind
    dsimp only
    by_cases hlim : p.stock ≤ existing.quantity
    · rw [if_pos hlim]; exact ⟨hcnd, hitems⟩
    rw [if_neg hlim]
    have hfp : ∀ i : CartItem,
        ((if i.product.id == p.id
            then { i with quantity := i.quantity + 1 } else i) : CartItem).product
          = i.product := by
      intro i
      by_cases h : (i.product.id == p.id) = true
      · rw [if_pos h]
      · rw [if_neg h]
    constructor
    · rw [map_key_of_product_preserving _ hfp]; exact hcnd
    · intro item' hitem'
      rcases List.mem_map.mp hitem' with ⟨item, hitem, rfl⟩
      obtain ⟨hfind_i, h1i, h2i⟩ := hitems item hitem
      by_cases hid : (item.product.id == p.id) = true
      · have hid' : item.product.id = p.id := by simpa using hid
        have hitem_eq : item = existing := by
          have h1 := find?_key_of_mem_nodup (fun i => i.product.id) cart hcnd hitem
          simp only [hid'] at h1
          exact Option.some.inj (h1.symm.trans hfind)
        have hprod_eq : item.product = p := by
          have h2 := find?_key_of_mem_nodup (fun q => q.id) products hnd hp
          rw [hid'] at hfind_i
          exact Option.some.inj (hfind_i.symm.trans h2)
        rw [if_pos hid]
        refine ⟨?_, ?_, ?_⟩
        · show products.find? (fun q => q.id == item.product.id) = some item.product
          exact hfind_i
        · show 1 ≤ item.quantity + 1
          omega
        · show item.quantity + 1 ≤ item.product.stock
          have hqe : item.quantity = existing.quantity := by rw [hitem_eq]
          rw [hprod_eq]
          omega
      · rw [if_neg hid]
        exact ⟨hfind_i, h1i, h2i⟩

/-- `updateQuantity` preserves the cart invariant. -/
theorem updateQuantity_inv {products : List Product} (id : String) (delta : ℤ)
    {cart : List CartItem} (hinv : CartInv products cart) :
    CartInv products (updateQuantity products id delta cart) := by
  obtain ⟨hcnd, hitems⟩ := hinv
  constructor
  · unfold updateQuantity
    rw [map_key_of_product_preserving]
    · exact hcnd
    · intro i
      unfold updateQuantityItem
      by_cases h : (i.product.id == id) = true
      · rw [if_pos h]
        cases hf : products.find? (fun p => p.id == id) with
        | none => rfl
        | some q =>
          by_cases hlt : q.stock < max 1 (i.quantity + delta)
          · show (if q.stock < max 1 (i.quantity + delta) then i
              else { i with quantity := max 1 (i.quantity + delta) }).product
                = i.product
            rw [if_pos hlt]
          · show (if q.stock < max 1 (i.quantity + delta) then i
              else { i with quantity := max 1 (i.quantity + delta) }).product
                = i.product
            rw [if_neg hlt]
      · rw [if_neg h]
  · intro item' hitem'
    rcases List.mem_map.mp hitem' with ⟨item, hitem, rfl⟩
    obtain ⟨hfind_i, h1i, h2i⟩ := hitems item hitem
    unfold updateQuantityItem
    by_cases h : (item.product.id == id) = true
    · have hid' : id = item.product.id := (beq_iff_eq.mp h).symm
      subst hid'
      rw [if_pos h, hfind_i]
      dsimp only
      by_cases hlt : item.product.stock < max 1 (item.quantity + delta)
      · rw [if_pos hlt]
        exact ⟨hfind_i, h1i, h2i⟩
      · rw [if_neg hlt]
        exact ⟨hfind_i, le_max_left _ _, le_of_not_lt hlt⟩
    · rw [if_neg h]
      exact ⟨hfind_i, h1i, h2i⟩

/-- `removeFromCart` preserves the cart invariant. -/
theorem removeFromCart_inv {products : List Product} (id : String)
    {cart : List CartItem} (hinv : CartInv products cart) :
    CartInv products (removeFromCart id cart) := by
  obtain ⟨hcnd, hitems⟩ := hinv
  constructor
  · exact List.Nodup.sublist
      (List.Sublist.map _ (List.filter_sublist _)) hcnd
  · intro item hitem
    exact hitems item (List.mem_of_mem_filter hitem)

/-- Folding any sequence of catalog-sourced actions preserves the cart
invariant. -/
theorem foldl_applyOp_inv {products : List Product}
    (hnd : (products.map (fun p => p.id)).Nodup) (ops : List CartOp)
    (hops : ∀ op ∈ ops, opFromCatalog products op) {cart : List CartItem}
    (hinv : CartInv products cart) :
    CartInv products (ops.foldl (applyOp products) cart) := by
  induction ops generalizing cart with
  | nil => exact hinv
  | cons op t ih =>
    simp only [List.foldl_cons]
    refine ih (fun o ho => hops o (List.mem_cons_of_mem _ ho)) ?_
    have hop := hops op (List.mem_cons_self _ _)
    cases op with
    | add p => exact addToCart_inv hnd hop hinv
    | update i d => exact updateQuantity_inv i d hinv
    | remove i => exact removeFromCart_inv i hinv

/-- C5: every cart reachable from the empty cart through the three handlers
(against a catalog with distinct product ids) keeps every line at
1 ≤ quantity ≤ stock of the catalog product its id finds; moreover adding a
product of stock 0 leaves the cart unchanged, and adding a product whose
existing line already sits at the stock limit is a no-op. -/
theorem cart_invariant_reachable (products : List Product)
    (hnd : (products.map (fun p => p.id)).Nodup) (ops : List CartOp)
    (hops : ∀ op ∈ ops, opFromCatalog products op) :
    (∀ item ∈ runOps products ops,
      products.find? (fun q => q.id == item.product.id) = some item.product ∧
      1 ≤ item.quantity ∧ item.quantity ≤ item.product.stock) ∧
    (∀ (p : Product) (cart : List CartItem),
      p.stock = 0 → addToCart p cart = cart) ∧
    (∀ (p : Product) (cart : List CartItem) (existing : CartItem),
      cart.find? (fun item => item.product.id == p.id) = some existing →
      existing.quantity = p.stock → addToCart p cart = cart) := by
  refine ⟨?_, ?_, ?_⟩
  · exact (@foldl_applyOp_inv products hnd ops hops []
      ⟨List.nodup_nil, by simp⟩).2
  · intro p cart hzero
    unfold addToCart
    rw [if_pos (by omega)]
  · intro p cart existing hfind hq
    unfold addToCart
    by_cases hstock : p.stock ≤ 0
    · rw [if_pos hstock]
    · rw [if_neg hstock, hfind]
      dsimp only
      rw [if_pos (le_of_eq hq.symm)]

/-- C5 witness: in the seed catalog, adding the stock-24 product to the
empty cart yields a line with quantity 1, within 1..stock. -/
theorem cart_invariant_reachable_witness :
    1 ≤ (CartItem.mk productJD 1).quantity ∧
    (CartItem.mk productJD 1).quantity
      ≤ (CartItem.mk productJD 1).product.stock := by
  have h := cart_invariant_reachable [productJD] (by decide)
    [CartOp.add productJD]
    (by
      intro op hop
      rcases List.mem_singleton.mp hop with rfl
      exact List.mem_singleton.mpr rfl)
  have hmem : CartItem.mk productJD 1 ∈ runOps [productJD] [CartOp.add productJD] := by
    decide
  exact (h.1 _ hmem).2

end Kante
